import Mathlib

/-!
Shallow embedding of the coin-ledger and game-room subsystem of the
`astrbot_plugin_dzgm` repository, together with proofs settling the frozen
claims about it.

Conventions of the embedding:
* Python objects that are mutated in place become Lean values that are
  returned updated; machine integers are `Int` (Python ints are unbounded).
* The SQLite tables become association lists (`List User`, `List GameRoom`,
  `List GameRecord`); `SELECT ... WHERE id = ?` is first-match lookup,
  `UPDATE ... WHERE id = ?` replaces every row with that key, `INSERT`
  appends, `DELETE` filters.
* Timestamps (`created_at`, `started_at`, `finished_at`, `joined_at`) and
  other presentation-only fields never read by the modelled logic are
  omitted from the structures.
* Sources of nondeterminism (uuid room ids, `random.randint`,
  `random.shuffle`) become explicit parameters, constrained by hypotheses
  mirroring their ranges.
-/

namespace DZGM

/-- Ledger-relevant fields of `User` (src/core/domain/models.py).  The
check-in / level / title fields are omitted: no operation modelled here
reads them. -/
structure User where
  user_id : String
  username : String
  coins : Int := 0
  total_earned : Int := 0
  total_spent : Int := 0
deriving Repr, DecidableEq, Inhabited

/-- `User.add_coins` (models.py line 31): unconditionally credits. -/
def User.add_coins (u : User) (amount : Int) : User :=
  { u with coins := u.coins + amount, total_earned := u.total_earned + amount }

/-- `User.spend_coins` (models.py line 36): debit guarded by the balance;
returns the success flag together with the (possibly unchanged) user. -/
def User.spend_coins (u : User) (amount : Int) : Bool × User :=
  if u.coins ≥ amount then
    (true, { u with coins := u.coins - amount, total_spent := u.total_spent + amount })
  else
    (false, u)

/-- The users table (sqlite_user_repo.py). -/
abbrev UserStore := List User

/-- `SELECT * FROM users WHERE user_id = ?` : first matching row. -/
def getById : UserStore → String → Option User
  | [], _ => none
  | u :: rest, uid => if u.user_id = uid then some u else getById rest uid

/-- `UPDATE users ... WHERE user_id = ?` : replaces every row keyed by
`u.user_id`. -/
def saveUser (s : UserStore) (u : User) : UserStore :=
  s.map (fun r => if r.user_id = u.user_id then u else r)

/-- `INSERT INTO users` : appends a row. -/
def createUser (s : UserStore) (u : User) : UserStore :=
  s ++ [u]

/-- `UserService.get_or_create_user` (user_service.py line 14): returns the
user, the is-new flag, and the updated store.  A fresh user starts with
1000 coins and zero lifetime totals. -/
def get_or_create_user (s : UserStore) (uid uname : String) : User × Bool × UserStore :=
  match getById s uid with
  | none =>
      let u : User := { user_id := uid, username := uname, coins := 1000 }
      (u, true, createUser s u)
  | some u =>
      if u.username ≠ uname then
        let u2 := { u with username := uname }
        (u2, false, saveUser s u2)
      else
        (u, false, s)

/-- `UserService.add_coins` (user_service.py line 33). -/
def add_coins_svc (s : UserStore) (uid : String) (amount : Int) : Bool × UserStore :=
  match getById s uid with
  | some u => (true, saveUser s (u.add_coins amount))
  | none => (false, s)

/-- `UserService.spend_coins` (user_service.py line 42): on a failed debit
the store is not written. -/
def spend_coins_svc (s : UserStore) (uid : String) (amount : Int) : Bool × UserStore :=
  match getById s uid with
  | some u =>
      if (u.spend_coins amount).1 then (true, saveUser s (u.spend_coins amount).2)
      else (false, s)
  | none => (false, s)

/-- `UserService.transfer_coins` (user_service.py line 50): both rows are
read from the original store; the debit side is attempted only when both
exist, and both saves happen only on a successful debit. -/
def transfer_coins_svc (s : UserStore) (fromId toId : String) (amount : Int) :
    Bool × UserStore :=
  match getById s fromId, getById s toId with
  | some fu, some tu =>
      if (fu.spend_coins amount).1 then
        (true, saveUser (saveUser s (fu.spend_coins amount).2) (tu.add_coins amount))
      else
        (false, s)
  | _, _ => (false, s)

/-- One ledger operation, as invoked through `UserService`. -/
inductive LedgerOp where
  | getOrCreate (uid uname : String)
  | add (uid : String) (amount : Int)
  | spend (uid : String) (amount : Int)
  | transfer (fromId toId : String) (amount : Int)
deriving Repr, DecidableEq

/-- Apply one ledger operation to the users table. -/
def applyOp (s : UserStore) : LedgerOp → UserStore
  | .getOrCreate uid uname => (get_or_create_user s uid uname).2.2
  | .add uid amount => (add_coins_svc s uid amount).2
  | .spend uid amount => (spend_coins_svc s uid amount).2
  | .transfer fromId toId amount => (transfer_coins_svc s fromId toId amount).2

/-- Apply a sequence of ledger operations. -/
def applyOps (ops : List LedgerOp) (s : UserStore) : UserStore :=
  ops.foldl applyOp s

/-- The ledger invariant the code actually maintains: every user's balance
is the 1000-coin creation grant plus lifetime earned minus lifetime
spent. -/
def LedgerInv (s : UserStore) : Prop :=
  ∀ u ∈ s, u.coins = 1000 + u.total_earned - u.total_spent

instance : DecidablePred LedgerInv := fun s =>
  inferInstanceAs (Decidable (∀ u ∈ s, u.coins = 1000 + u.total_earned - u.total_spent))

/-- The balance offset predicate for a single user. -/
def userInv (u : User) : Prop := u.coins = 1000 + u.total_earned - u.total_spent

/-! ## Game-room data model (src/core/domain/models.py `GameRoom`,
`GameRecord`) and the SQLite game repository (sqlite_game_repo.py). -/

/-- One seat in a room's `players` list.  In Python this is a dict holding
`user_id`, `username`, `joined_at` plus the engine-private `is_alive` /
`shots_fired` added by `start_game`; `joined_at` (a timestamp, never read
by the modelled logic) is omitted, and the engine fields carry their
post-`start_game` defaults until `start_game` sets them (no modelled code
reads them before that). -/
structure Player where
  user_id : String
  username : String
  is_alive : Bool := true
  shots_fired : Nat := 0
deriving Repr, DecidableEq, Inhabited

/-- The roulette engine's private `game_data` blob
(russian_roulette_engine.py `initialize_game_data`). -/
structure GameData where
  bullet_position : Nat
  current_position : Nat
  current_player_index : Nat
  chamber_count : Nat
  bullets_count : Nat
deriving Repr, DecidableEq, Inhabited

/-- `GameRoom` (models.py line 104).  The `settings` blob (always empty for
the roulette engine) and the three timestamps are omitted: no modelled
operation reads them. -/
structure GameRoom where
  id : String
  game_type : String
  channel_id : String
  creator_id : String
  creator_name : String
  bet_amount : Int
  status : String := "waiting"
  max_players : Nat := 6
  min_players : Nat := 2
  players : List Player := []
  game_data : GameData := default
deriving Repr, DecidableEq, Inhabited

/-- `GameRecord` (models.py line 91).  Of the free-form `details` dict the
embedding keeps the two scalar entries (`room_id`, `total_players`); the
nested raw engine result and the timestamps are omitted. -/
structure GameRecord where
  user_id : String
  game_type : String
  coins_bet : Int
  coins_won : Int
  result : String
  details_room_id : String
  details_total_players : Nat
deriving Repr, DecidableEq, Inhabited

/-- `SELECT * FROM game_rooms WHERE id = ?` : first matching row. -/
def getRoomById : List GameRoom → String → Option GameRoom
  | [], _ => none
  | r :: rest, rid => if r.id = rid then some r else getRoomById rest rid

/-- `UPDATE game_rooms ... WHERE id = ?` : replaces every row keyed by
`room.id`. -/
def updateRoom (rooms : List GameRoom) (room : GameRoom) : List GameRoom :=
  rooms.map (fun r => if r.id = room.id then room else r)

/-- `DELETE FROM game_rooms WHERE id = ?`. -/
def deleteRoom (rooms : List GameRoom) (rid : String) : List GameRoom :=
  rooms.filter (fun r => ¬(r.id = rid))

/-- `get_user_rooms` (sqlite_game_repo.py line 186) restricted to a status:
rooms where the user is the creator or appears in the players list.  (The
SQL uses `players LIKE '%uid%'`, a substring match over the serialized
players column; exact seat membership implies that match, which is all the
claims need.) -/
def get_user_rooms (rooms : List GameRoom) (uid status : String) : List GameRoom :=
  rooms.filter (fun r =>
    (r.creator_id == uid || r.players.any (fun p => p.user_id == uid)) &&
      r.status == status)

/-- The persistent state a `GameService` operation sees: users, rooms and
game-record tables. -/
structure GameState where
  users : UserStore
  rooms : List GameRoom
  records : List GameRecord
deriving Repr, DecidableEq, Inhabited

/-! ## Russian-roulette engine (src/games/russian_roulette_engine.py).
Static bounds and the per-room state machine.  Per main.py this is the
only engine registered with the `GameService`. -/

def rouletteMinPlayers : Nat := 2
def rouletteMaxPlayers : Nat := 6
def rouletteMinBet : Int := 100
def rouletteMaxBet : Int := 10000

/-- `initialize_game_data` (line 50): bullet unset, wheel at position 1,
first seat active, 6 chambers, 1 bullet. -/
def initialize_game_data : GameData :=
  { bullet_position := 0, current_position := 1, current_player_index := 0,
    chamber_count := 6, bullets_count := 1 }

/-- `start_game` (line 64).  `random.randint(1, chamber_count)` becomes the
explicit `bullet` argument and `random.shuffle(players)` the explicit
`shuffled` list (hypotheses at use sites constrain them).  Every seat is
marked alive with zero shots fired. -/
def start_game (room : GameRoom) (bullet : Nat) (shuffled : List Player) : GameRoom :=
  { room with
    game_data := { room.game_data with
      bullet_position := bullet, current_position := 1, current_player_index := 0 },
    players := shuffled.map (fun p => { p with is_alive := true, shots_fired := 0 }) }

/-- `can_start_game` (line 60). -/
def can_start_game (room : GameRoom) : Bool :=
  rouletteMinPlayers ≤ room.players.length

/-- Advancing the wheel after a miss (lines 130-132): increment, wrapping
past `chamber_count` back to 1. -/
def advancePos (pos chamber : Nat) : Nat :=
  if pos + 1 > chamber then 1 else pos + 1

/-- The firing loop of `process_action` (lines 120-132): up to `n`
sequential pulls; a pull at the bullet position reports a hit and stops
without advancing the wheel, a miss advances it.  Returns the hit flag and
the final wheel position. -/
def fireShots (pos bullet chamber : Nat) : Nat → Bool × Nat
  | 0 => (false, pos)
  | n + 1 =>
      if pos = bullet then (true, pos)
      else fireShots (advancePos pos chamber) bullet chamber n

/-- `_next_player` (line 207): advance the active index circularly to the
next alive seat, giving up after one full pass.  The Python `while`
loop's `attempts < len(players)` bound becomes the explicit fuel
argument. -/
def nextPlayerLoop (players : List Player) : Nat → Nat → Nat
  | idx, 0 => idx
  | idx, fuel + 1 =>
      let idx2 := (idx + 1) % players.length
      if (players.getD idx2 default).is_alive then idx2
      else nextPlayerLoop players idx2 fuel

/-- `_next_player` entry point: fuel is the seat count. -/
def next_player_index (players : List Player) (idx : Nat) : Nat :=
  nextPlayerLoop players idx players.length

/-- The dict returned by the engine's `process_action`: the `success` flag
and (on the success paths) the `game_continues` flag.  The human-readable
`message` value (pure presentation) is not modelled. -/
structure ActionResult where
  success : Bool
  game_continues : Option Bool := none
deriving Repr, DecidableEq, Inhabited

/-- `is_game_finished` (line 185): at most one seat alive. -/
def is_game_finished (room : GameRoom) : Bool :=
  (room.players.filter (fun p => p.is_alive)).length ≤ 1

/-- The `winners` list of `get_game_result` (line 190): ids of all alive
seats, in seat order. -/
def get_game_result_winners (room : GameRoom) : List String :=
  (room.players.filter (fun p => p.is_alive)).map (fun p => p.user_id)

/-- `process_action` (line 92).  The `params` dict is reduced to the
`shots` value it carries (`params.get('shots', 1)` at the call site).
Python's `room.players[index]` lookup raises `IndexError` on an
out-of-range index; that crash is modelled as `none`.  Checks in source
order: action name, turn ownership, shot count; then the firing loop, the
seat update, and either the game-over early return (active index
untouched) or the advance to the next alive seat. -/
def process_action (room : GameRoom) (user_id : String) (action : String)
    (shots : Int) : Option (ActionResult × GameRoom) :=
  if action ≠ "shoot" then some (⟨false, none⟩, room)
  else
    match room.players.get? room.game_data.current_player_index with
    | none => none
    | some current =>
      if current.user_id ≠ user_id then some (⟨false, none⟩, room)
      else if shots < 1 ∨ shots > 3 then some (⟨false, none⟩, room)
      else
        let fired := fireShots room.game_data.current_position
          room.game_data.bullet_position room.game_data.chamber_count shots.toNat
        let is_dead := fired.1
        let current2 := { current with
          is_alive := if is_dead then false else current.is_alive,
          shots_fired := current.shots_fired + shots.toNat }
        let players2 := room.players.set room.game_data.current_player_index current2
        let room2 := { room with
          players := players2,
          game_data := { room.game_data with current_position := fired.2 } }
        if is_dead || (players2.filter (fun p => p.is_alive)).length ≤ 1 then
          some (⟨true, some false⟩, room2)
        else
          some (⟨true, some true⟩,
            { room2 with game_data := { room2.game_data with
                current_player_index :=
                  next_player_index players2 room.game_data.current_player_index } })

/-! ## GameService (src/core/services/game_service.py), specialized to the
one engine registered in main.py (`RussianRouletteEngine`). -/

/-- The dict returned by the room-lifecycle operations of `GameService`:
success flag, message text, and (for `create_room`) the new room id. -/
structure GSResult where
  success : Bool
  message : String
  room_id : Option String := none
deriving Repr, DecidableEq, Inhabited

/-- `_build_room_created_message` (game_service.py line 375). -/
def build_room_created_message (room : GameRoom) : String :=
  "🎮 俄罗斯轮盘 #" ++ room.id ++ " 已创建！\n\n" ++
  "创建者: " ++ room.creator_name ++ "\n" ++
  "下注金额: " ++ toString room.bet_amount ++ " 金币\n" ++
  "当前玩家: 1/" ++ toString room.max_players ++ "\n\n" ++
  "🔹 其他玩家使用命令加入游戏\n" ++
  "🔹 " ++ toString room.min_players ++ "人以上可开始游戏"

/-- `create_room` (game_service.py line 41).  The generated
`uuid4()[:8]` id becomes the explicit `room_id` argument.  Check order as
in the source: engine registered, bet bounds, then `get_or_create_user`
(whose store update persists even if a later check fails), balance,
active-room; only then is the creator debited and the room inserted in
status `waiting` with the creator seated. -/
def create_room (st : GameState) (game_type channel_id creator_id creator_name : String)
    (bet_amount : Int) (room_id : String) : GSResult × GameState :=
  if game_type ≠ "russian_roulette" then
    (⟨false, "不支持的游戏类型：" ++ game_type, none⟩, st)
  else if bet_amount < rouletteMinBet then
    (⟨false, "最小下注金额为 " ++ toString rouletteMinBet ++ " 金币", none⟩, st)
  else if bet_amount > rouletteMaxBet then
    (⟨false, "最大下注金额为 " ++ toString rouletteMaxBet ++ " 金币", none⟩, st)
  else
    let user := (get_or_create_user st.users creator_id creator_name).1
    let users1 := (get_or_create_user st.users creator_id creator_name).2.2
    if user.coins < bet_amount then
      (⟨false, "金币不足！当前金币：" ++ toString user.coins ++ "，需要：" ++
          toString bet_amount, none⟩,
        { st with users := users1 })
    else if get_user_rooms st.rooms creator_id "waiting" ++
        get_user_rooms st.rooms creator_id "playing" ≠ [] then
      (⟨false, "你已有活跃的游戏房间，请先完成或取消现有游戏。", none⟩,
        { st with users := users1 })
    else
      let room : GameRoom :=
        { id := room_id, game_type := game_type, channel_id := channel_id,
          creator_id := creator_id, creator_name := creator_name,
          bet_amount := bet_amount, status := "waiting",
          max_players := rouletteMaxPlayers, min_players := rouletteMinPlayers,
          players := [{ user_id := creator_id, username := creator_name }],
          game_data := initialize_game_data }
      let users2 := (spend_coins_svc users1 creator_id bet_amount).2
      (⟨true, build_room_created_message room, some room_id⟩,
        { st with users := users2, rooms := st.rooms ++ [room] })

/-- `cancel_room` (game_service.py line 263).  Check order as in the
source: room exists, caller is the creator, status — and the status check
rejects only `'playing'`.  On the pass-through path every seated player is
credited the bet via `UserService.add_coins` and the room row is
deleted. -/
def cancel_room (st : GameState) (room_id user_id : String) : GSResult × GameState :=
  match getRoomById st.rooms room_id with
  | none => (⟨false, "游戏房间不存在！", none⟩, st)
  | some room =>
      if room.creator_id ≠ user_id then
        (⟨false, "只有游戏创建者可以取消游戏！", none⟩, st)
      else if room.status = "playing" then
        (⟨false, "游戏已开始，无法取消！", none⟩, st)
      else
        let users2 := room.players.foldl
          (fun us p => (add_coins_svc us p.user_id room.bet_amount).2) st.users
        (⟨true, "游戏房间 #" ++ room_id ++ " 已取消，所有玩家的金币已退还。", none⟩,
          { st with users := users2, rooms := deleteRoom st.rooms room_id })

/-- `_finish_game` (game_service.py line 326): mark the room finished, ask
the engine for the winners, credit each winner `total_pot //
len(winners)` (Python floor division, `Int.fdiv`; nothing is credited
when there are no winners, and the integer remainder is credited to no
one), append one `GameRecord` per seated player tagged win/lose, and
persist the room.  The achievement hook called per player is an external
collaborator whose ledger side effects are outside this core (spec § 2,
§ 6) and is not modelled. -/
def finish_game (st : GameState) (room : GameRoom) : GameState :=
  let room1 := { room with status := "finished" }
  let winners := get_game_result_winners room1
  let total_pot := room.bet_amount * (room.players.length : Int)
  let prize := total_pot.fdiv (winners.length : Int)
  let users2 := winners.foldl
    (fun us w => (add_coins_svc us w prize).2) st.users
  let records2 := st.records ++ room1.players.map (fun p =>
    { user_id := p.user_id, game_type := room.game_type,
      coins_bet := room.bet_amount,
      coins_won := if p.user_id ∈ winners then prize else 0,
      result := if p.user_id ∈ winners then "win" else "lose",
      details_room_id := room.id,
      details_total_players := room.players.length })
  { users := users2, rooms := updateRoom st.rooms room1, records := records2 }

/-- `process_game_action` (game_service.py line 229): room lookup, engine
lookup, status check, then the engine's `process_action`; the finished
check runs on the mutated room whatever the engine reported, settling via
`_finish_game` or persisting the room. -/
def process_game_action (st : GameState) (room_id user_id action : String)
    (shots : Int) : Option (ActionResult × GameState) :=
  match getRoomById st.rooms room_id with
  | none => some (⟨false, none⟩, st)
  | some room =>
      if room.game_type ≠ "russian_roulette" then some (⟨false, none⟩, st)
      else if room.status ≠ "playing" then some (⟨false, none⟩, st)
      else
        match process_action room user_id action shots with
        | none => none
        | some (res, room2) =>
            if is_game_finished room2 then some (res, finish_game st room2)
            else some (res, { st with rooms := updateRoom st.rooms room2 })

/-- Run a sequence of `'shoot'` submissions `(user_id, shots)` through
`process_game_action`, propagating the state; `none` if any step
crashes. -/
def run_actions (st : GameState) (room_id : String) :
    List (String × Int) → Option GameState
  | [] => some st
  | a :: rest =>
      match process_game_action st room_id a.1 "shoot" a.2 with
      | none => none
      | some (_, st2) => run_actions st2 room_id rest

/-- A deterministic sweep of sequential single-shot pulls (the claimed
test scenario): each pull is the firing loop with `count = 1`
(`fireShots _ _ _ 1`), chained without reshuffling; returns the hit flag
of each pull in order. -/
def pullFlags (pos bullet chamber : Nat) : Nat → List Bool
  | 0 => []
  | k + 1 =>
      (fireShots pos bullet chamber 1).1 ::
        pullFlags (fireShots pos bullet chamber 1).2 bullet chamber k

/-- The room value `process_action` produces when the active player's shot
hits the bullet: the seat is marked dead with the full requested shot
count added, the wheel stays on the bullet position, and the active index
is untouched (used to state C4). -/
def room_after_hit (room : GameRoom) (current : Player) (shots : Int) : GameRoom :=
  { room with
    players := room.players.set room.game_data.current_player_index
      { current with
        is_alive := false,
        shots_fired := current.shots_fired + shots.toNat } }

/-! ## Concrete fixtures used by counterexample and witness theorems. -/

/-- A `playing` three-player room whose wheel currently sits on the bullet
slot, with the first seat active. -/
def hitRoom : GameRoom :=
  { id := "r4", game_type := "russian_roulette", channel_id := "c1",
    creator_id := "alice", creator_name := "A", bet_amount := 100,
    status := "playing",
    players := [{ user_id := "alice", username := "A" },
                { user_id := "bob", username := "B" },
                { user_id := "carol", username := "C" }],
    game_data := { bullet_position := 2, current_position := 2,
                   current_player_index := 0, chamber_count := 6,
                   bullets_count := 1 } }

def hitState : GameState :=
  { users := [⟨"alice", "A", 0, 0, 100⟩, ⟨"bob", "B", 0, 0, 100⟩,
              ⟨"carol", "C", 0, 0, 100⟩],
    rooms := [hitRoom], records := [] }

/-- A two-player room whose game has finished (settlement already ran). -/
def finishedRoom : GameRoom :=
  { id := "r1", game_type := "russian_roulette", channel_id := "c1",
    creator_id := "alice", creator_name := "A", bet_amount := 100,
    status := "finished",
    players := [{ user_id := "alice", username := "A" },
                { user_id := "bob", username := "B", is_alive := false, shots_fired := 1 }] }

/-- State holding `finishedRoom`: both bets were escrowed and the pot was
already paid out at settlement. -/
def finishedState : GameState :=
  { users := [⟨"alice", "A", 0, 0, 100⟩, ⟨"bob", "B", 50, 0, 100⟩],
    rooms := [finishedRoom], records := [] }

/-- Settlement fixture A: bet 100, three seated players, one survivor. -/
def settleRoomA : GameRoom :=
  { id := "r2", game_type := "russian_roulette", channel_id := "c1",
    creator_id := "alice", creator_name := "A", bet_amount := 100,
    status := "playing",
    players := [{ user_id := "alice", username := "A", shots_fired := 2 },
                { user_id := "bob", username := "B", is_alive := false, shots_fired := 1 },
                { user_id := "carol", username := "C", is_alive := false, shots_fired := 1 }] }

def settleStateA : GameState :=
  { users := [⟨"alice", "A", 0, 0, 100⟩, ⟨"bob", "B", 0, 0, 100⟩,
              ⟨"carol", "C", 0, 0, 100⟩],
    rooms := [settleRoomA], records := [] }

/-- Settlement fixture B: bet 25, four seated players, three survivors, so
the pot is 100 split three ways. -/
def settleRoomB : GameRoom :=
  { id := "r3", game_type := "russian_roulette", channel_id := "c1",
    creator_id := "alice", creator_name := "A", bet_amount := 25,
    status := "playing",
    players := [{ user_id := "alice", username := "A" },
                { user_id := "bob", username := "B" },
                { user_id := "carol", username := "C" },
                { user_id := "dave", username := "D", is_alive := false, shots_fired := 1 }] }

def settleStateB : GameState :=
  { users := [⟨"alice", "A", 0, 0, 25⟩, ⟨"bob", "B", 0, 0, 25⟩,
              ⟨"carol", "C", 0, 0, 25⟩, ⟨"dave", "D", 0, 0, 25⟩],
    rooms := [settleRoomB], records := [] }

/-- A user with an open `waiting` room and an empty purse. -/
def brokeCreatorState : GameState :=
  { users := [⟨"alice", "A", 0, 0, 100⟩],
    rooms := [{ id := "r1", game_type := "russian_roulette", channel_id := "c1",
                creator_id := "alice", creator_name := "A", bet_amount := 100,
                status := "waiting",
                players := [{ user_id := "alice", username := "A" }] }],
    records := [] }

/-! ## Ledger lemmas and the ledger claims. -/

/-- Membership in a saved store: a row is the saved user or an original row. -/
lemma mem_saveUser {s : UserStore} {u x : User} (hx : x ∈ saveUser s u) :
    x = u ∨ x ∈ s := by
  rcases List.mem_map.mp hx with ⟨r, hr, hrx⟩
  by_cases h : r.user_id = u.user_id
  · simp [h] at hrx
    exact Or.inl hrx.symm
  · simp [h] at hrx
    exact Or.inr (hrx ▸ hr)

lemma userInv_add_coins {u : User} (h : userInv u) (amount : Int) :
    userInv (u.add_coins amount) := by
  simp only [userInv, User.add_coins] at *
  omega

lemma userInv_spend_coins {u : User} (h : userInv u) (amount : Int) :
    userInv (u.spend_coins amount).2 := by
  simp only [userInv, User.spend_coins] at *
  split <;> simp <;> omega

lemma getById_mem {s : UserStore} {uid : String} {u : User}
    (h : getById s uid = some u) : u ∈ s := by
  induction s with
  | nil => simp [getById] at h
  | cons x rest ih =>
      simp only [getById] at h
      split at h
      · simp at h
        simp [h]
      · exact List.mem_cons_of_mem _ (ih h)

lemma getById_user_id {s : UserStore} {uid : String} {u : User}
    (h : getById s uid = some u) : u.user_id = uid := by
  induction s with
  | nil => simp [getById] at h
  | cons x rest ih =>
      simp only [getById] at h
      split at h
      · simp at h
        subst h
        assumption
      · exact ih h

lemma LedgerInv_saveUser {s : UserStore} {u : User} (hs : LedgerInv s)
    (hu : userInv u) : LedgerInv (saveUser s u) := by
  intro x hx
  rcases mem_saveUser hx with h | h
  · exact h ▸ hu
  · exact hs x h

lemma LedgerInv_createUser {s : UserStore} (hs : LedgerInv s) {u : User}
    (hu : userInv u) : LedgerInv (createUser s u) := by
  intro x hx
  rcases List.mem_append.mp hx with h | h
  · exact hs x h
  · simp at h
    exact h ▸ hu

lemma LedgerInv_applyOp {s : UserStore} (hs : LedgerInv s) (op : LedgerOp) :
    LedgerInv (applyOp s op) := by
  cases op with
  | getOrCreate uid uname =>
      simp only [applyOp, get_or_create_user]
      cases hg : getById s uid with
      | none =>
          dsimp only
          exact LedgerInv_createUser hs (by simp [userInv])
      | some u =>
          dsimp only
          split
          · dsimp only
            exact LedgerInv_saveUser hs (by
              have := hs u (getById_mem hg)
              simpa [userInv] using this)
          · exact hs
  | add uid amount =>
      simp only [applyOp, add_coins_svc]
      cases hg : getById s uid with
      | none => exact hs
      | some u =>
          dsimp only
          exact LedgerInv_saveUser hs
            (userInv_add_coins (hs u (getById_mem hg)) amount)
  | spend uid amount =>
      simp only [applyOp, spend_coins_svc]
      cases hg : getById s uid with
      | none => exact hs
      | some u =>
          dsimp only
          split
          · exact LedgerInv_saveUser hs
              (userInv_spend_coins (hs u (getById_mem hg)) amount)
          · exact hs
  | transfer fromId toId amount =>
      simp only [applyOp, transfer_coins_svc]
      cases hf : getById s fromId with
      | none => exact hs
      | some fu =>
          cases ht : getById s toId with
          | none => exact hs
          | some tu =>
              dsimp only
              split
              · exact LedgerInv_saveUser
                  (LedgerInv_saveUser hs
                    (userInv_spend_coins (hs fu (getById_mem hf)) amount))
                  (userInv_add_coins (hs tu (getById_mem ht)) amount)
              · exact hs

lemma LedgerInv_applyOps (ops : List LedgerOp) {s : UserStore}
    (hs : LedgerInv s) : LedgerInv (applyOps ops s) := by
  induction ops generalizing s with
  | nil => exact hs
  | cons op rest ih => exact ih (LedgerInv_applyOp hs op)

/-- C1, counterexample: a user freshly created by `get_or_create_user`
starts with 1000 coins but zero `total_earned` and `total_spent`, so the
claimed invariant balance = earned − spent is already false immediately
after creation. -/
theorem C1_creation_balance_ne_earned_minus_spent :
    (get_or_create_user [] "alice" "Alice").1.coins ≠
      (get_or_create_user [] "alice" "Alice").1.total_earned -
        (get_or_create_user [] "alice" "Alice").1.total_spent := by
  decide

/-- C1 (amended): starting from the empty users table, after any sequence
of get_or_create / credit / debit / transfer operations through
`UserService`, every user's balance equals the 1000-coin creation grant
plus `total_earned` minus `total_spent` (the grant itself is not recorded
in `total_earned`, which is exactly where the claimed
balance = earned − spent fails). -/
theorem C1_ledger_invariant (ops : List LedgerOp) :
    LedgerInv (applyOps ops []) :=
  LedgerInv_applyOps ops (by intro u hu; simp at hu)

/-- C9: a debit whose amount exceeds the user's balance fails: the `User`
method reports failure without touching coins or lifetime totals, and the
service performs no persistence write — the store is returned exactly as
given. -/
theorem C9_spend_insufficient_no_mutation (s : UserStore) (uid : String)
    (u : User) (amount : Int) (hu : getById s uid = some u)
    (hlt : u.coins < amount) :
    u.spend_coins amount = (false, u) ∧
      spend_coins_svc s uid amount = (false, s) := by
  have hsp : u.spend_coins amount = (false, u) := by
    simp [User.spend_coins, not_le.mpr hlt]
  refine ⟨hsp, ?_⟩
  simp [spend_coins_svc, hu, hsp]

/-- C9 witness: concrete instance with balance 5 and debit amount 10. -/
theorem C9_witness :
    (⟨"u1", "U", 5, 0, 0⟩ : User).spend_coins 10 = (false, ⟨"u1", "U", 5, 0, 0⟩) ∧
      spend_coins_svc [⟨"u1", "U", 5, 0, 0⟩] "u1" 10 =
        (false, [⟨"u1", "U", 5, 0, 0⟩]) :=
  C9_spend_insufficient_no_mutation [⟨"u1", "U", 5, 0, 0⟩] "u1"
    ⟨"u1", "U", 5, 0, 0⟩ 10 (by decide) (by decide)

/-! ## Lookup lemmas for the association-list stores. -/

lemma getById_append_of_some {s : UserStore} {uid : String} {u : User}
    (h : getById s uid = some u) (t : UserStore) :
    getById (s ++ t) uid = some u := by
  induction s with
  | nil => simp [getById] at h
  | cons x rest ih =>
      simp only [getById, List.cons_append] at *
      split at h <;> simp_all [getById]

lemma getById_saveUser (s : UserStore) (v : User) (uid : String) :
    getById (saveUser s v) uid =
      if v.user_id = uid then (getById s uid).map (fun _ => v)
      else getById s uid := by
  induction s with
  | nil =>
      simp only [saveUser, List.map_nil, getById]
      split <;> rfl
  | cons x rest ih =>
      simp only [saveUser, List.map_cons, getById] at *
      by_cases hx : x.user_id = v.user_id
      · by_cases hv : v.user_id = uid
        · simp [hx, hv, ih]
        · have hxu : ¬x.user_id = uid := by rw [hx]; exact hv
          simp [hx, hv, hxu, ih]
      · by_cases hxu : x.user_id = uid
        · have hv : ¬v.user_id = uid := by
            intro h; exact hx (hxu.trans h.symm)
          have hv2 : ¬uid = v.user_id := fun h => hv h.symm
          simp [hx, hxu, hv, hv2]
        · simp [hx, hxu, ih]

lemma getById_add_coins (s : UserStore) (tgt : String) (a : Int) (uid : String) :
    getById ((add_coins_svc s tgt a).2) uid =
      if tgt = uid then (getById s uid).map (fun u => u.add_coins a)
      else getById s uid := by
  cases hg : getById s tgt with
  | none =>
      simp only [add_coins_svc, hg]
      split
      · next h => subst h; simp [hg]
      · rfl
  | some u =>
      have hkey : u.user_id = tgt := getById_user_id hg
      simp only [add_coins_svc, hg]
      rw [getById_saveUser]
      simp only [User.add_coins]
      by_cases h : tgt = uid
      · subst h
        simp [hkey, hg, User.add_coins]
      · simp [hkey, h]

/-- Crediting a duplicate-free list of user ids: a present user's row is
credited exactly once if their id is in the list, and untouched
otherwise. -/
lemma getById_creditFold (w : List String) (hw : w.Nodup) (a : Int)
    (s : UserStore) (uid : String) (u : User) (hu : getById s uid = some u) :
    getById (w.foldl (fun us i => (add_coins_svc us i a).2) s) uid =
      some (if uid ∈ w then u.add_coins a else u) := by
  induction w generalizing s u with
  | nil => simpa using hu
  | cons i rest ih =>
      have hw1 : i ∉ rest := (List.nodup_cons.mp hw).1
      have hw2 : rest.Nodup := (List.nodup_cons.mp hw).2
      simp only [List.foldl_cons]
      by_cases hi : i = uid
      · subst hi
        have h1 : getById ((add_coins_svc s i a).2) i = some (u.add_coins a) := by
          rw [getById_add_coins]; simp [hu]
        rw [ih hw2 _ _ h1]
        simp [hw1]
      · have h1 : getById ((add_coins_svc s i a).2) uid = some u := by
          rw [getById_add_coins]; simp [hi, hu]
        rw [ih hw2 _ _ h1]
        have hmem : (uid ∈ i :: rest) ↔ uid ∈ rest := by
          rw [List.mem_cons]
          refine ⟨?_, Or.inr⟩
          rintro (h | h)
          · exact absurd h (fun hh => hi hh.symm)
          · exact h
        simp [hmem]

/-- `get_or_create_user` never changes an existing user's coin fields: it
at most rewrites the username or appends a fresh row. -/
lemma getById_getOrCreate (s : UserStore) (c n uid : String) (u : User)
    (hu : getById s uid = some u) :
    ∃ u2, getById ((get_or_create_user s c n).2.2) uid = some u2 ∧
      u2.coins = u.coins ∧ u2.total_spent = u.total_spent ∧
      u2.total_earned = u.total_earned := by
  simp only [get_or_create_user]
  cases hg : getById s c with
  | none =>
      exact ⟨u, getById_append_of_some hu _, rfl, rfl, rfl⟩
  | some u0 =>
      dsimp only
      split
      · dsimp only
        rw [getById_saveUser]
        by_cases h : u0.user_id = uid
        · have hc : u0.user_id = c := getById_user_id hg
          have huc : uid = c := by rw [← h, hc]
          have hu0 : getById s uid = some u0 := by rw [huc]; exact hg
          have huu : u = u0 := (Option.some.inj (hu0.symm.trans hu)).symm
          refine ⟨{ u0 with username := n }, ?_, by rw [huu], by rw [huu], by rw [huu]⟩
          simp [h, hu0]
        · exact ⟨u, by simp [h, hu], rfl, rfl, rfl⟩
      · exact ⟨u, hu, rfl, rfl, rfl⟩

lemma getRoomById_deleteRoom (rooms : List GameRoom) (rid : String) :
    getRoomById (deleteRoom rooms rid) rid = none := by
  induction rooms with
  | nil => rfl
  | cons r rest ih =>
      simp only [deleteRoom, List.filter_cons, decide_not] at ih ⊢
      by_cases h : r.id = rid
      · simp [h, ih]
      · simp [h, getRoomById, ih]

/-- C2 (code bug): `cancel_room` rejects only status `'playing'`, so a
`'finished'` room — whose pot was already paid out at settlement — passes
the status check: every seated player is refunded the bet a second time
and the room is deleted.  The claim (with the spec: wrong-status failure
for playing and finished, bets never refunded after start) describes the
intended behavior; the code's check `status == 'playing'` lets finished
rooms through. -/
theorem C2_cancel_finished_room_refunds_and_deletes :
    (cancel_room finishedState "r1" "alice").1.success = true ∧
      getById (cancel_room finishedState "r1" "alice").2.users "alice" =
        some ⟨"alice", "A", 100, 100, 100⟩ ∧
      getById (cancel_room finishedState "r1" "alice").2.users "bob" =
        some ⟨"bob", "B", 150, 100, 100⟩ ∧
      getRoomById (cancel_room finishedState "r1" "alice").2.rooms "r1" = none := by
  decide

/-- C3: on settlement, with duplicate-free seat ids, every user present in
the ledger is credited the per-winner share `(bet * seats).fdiv winners`
exactly when their id is among the engine's winners and is untouched
otherwise (so the integer remainder is credited to no one), and exactly
one `GameRecord` is appended per seated player, tagged win/lose with
`coins_won` the share or 0.  Concretely (fixture A): bet 100, 3 players,
1 winner credits the winner exactly 300 and appends 3 records (1 win,
2 lose); (fixture B): a pot of 100 with 3 winners credits 33 each and
nobody receives the leftover 1. -/
theorem C3_settlement_pot_split_and_records (st : GameState) (room : GameRoom)
    (hnodup : (room.players.map (fun p => p.user_id)).Nodup) :
    (∀ uid u, getById st.users uid = some u →
      getById (finish_game st room).users uid =
        some (if uid ∈ get_game_result_winners room then
          u.add_coins ((room.bet_amount * (room.players.length : Int)).fdiv
            ((get_game_result_winners room).length : Int))
        else u)) ∧
    (finish_game st room).records = st.records ++ room.players.map (fun p =>
      { user_id := p.user_id, game_type := room.game_type,
        coins_bet := room.bet_amount,
        coins_won := if p.user_id ∈ get_game_result_winners room then
          (room.bet_amount * (room.players.length : Int)).fdiv
            ((get_game_result_winners room).length : Int) else 0,
        result := if p.user_id ∈ get_game_result_winners room then "win" else "lose",
        details_room_id := room.id,
        details_total_players := room.players.length }) ∧
    (getById (finish_game settleStateA settleRoomA).users "alice" =
        some ⟨"alice", "A", 300, 300, 100⟩ ∧
      getById (finish_game settleStateA settleRoomA).users "bob" =
        some ⟨"bob", "B", 0, 0, 100⟩ ∧
      (finish_game settleStateA settleRoomA).records.map
        (fun r => (r.result, r.coins_won)) = [("win", 300), ("lose", 0), ("lose", 0)]) ∧
    (getById (finish_game settleStateB settleRoomB).users "alice" =
        some ⟨"alice", "A", 33, 33, 25⟩ ∧
      getById (finish_game settleStateB settleRoomB).users "bob" =
        some ⟨"bob", "B", 33, 33, 25⟩ ∧
      getById (finish_game settleStateB settleRoomB).users "carol" =
        some ⟨"carol", "C", 33, 33, 25⟩ ∧
      getById (finish_game settleStateB settleRoomB).users "dave" =
        some ⟨"dave", "D", 0, 0, 25⟩) := by
  have hwnd : (get_game_result_winners room).Nodup := by
    have hsub : List.Sublist
        ((room.players.filter (fun p => p.is_alive)).map (fun p => p.user_id))
        (room.players.map (fun p => p.user_id)) :=
      (List.filter_sublist _).map _
    exact hnodup.sublist hsub
  refine ⟨?_, rfl, by decide, by decide⟩
  intro uid u hu
  exact getById_creditFold _ hwnd _ st.users uid u hu

/-- C3 witness: the general settlement statement applied to fixture A at
the winning seat alice. -/
theorem C3_settlement_witness :
    getById (finish_game settleStateA settleRoomA).users "alice" =
      some (if "alice" ∈ get_game_result_winners settleRoomA then
        (⟨"alice", "A", 0, 0, 100⟩ : User).add_coins
          ((settleRoomA.bet_amount * (settleRoomA.players.length : Int)).fdiv
            ((get_game_result_winners settleRoomA).length : Int))
      else ⟨"alice", "A", 0, 0, 100⟩) :=
  (C3_settlement_pot_split_and_records settleStateA settleRoomA (by decide)).1
    "alice" ⟨"alice", "A", 0, 0, 100⟩ (by decide)

/-- C7: a successful `create_room` debits exactly the bet from the creator
exactly once (every other user's row is untouched) and appends the room in
status `waiting`; a successful `cancel_room` of a `waiting` room credits
exactly the bet back to each seated player once (every user whose id is
not a seat id is untouched) and deletes the room. -/
theorem C7_create_debits_cancel_refunds :
    (∀ (st : GameState) (ch creator cname rid : String) (bet : Int) (u : User),
      getById st.users creator = some u →
      u.username = cname →
      rouletteMinBet ≤ bet → bet ≤ rouletteMaxBet →
      bet ≤ u.coins →
      get_user_rooms st.rooms creator "waiting" = [] →
      get_user_rooms st.rooms creator "playing" = [] →
      (create_room st "russian_roulette" ch creator cname bet rid).1.success = true ∧
      getById (create_room st "russian_roulette" ch creator cname bet rid).2.users creator =
        some { u with coins := u.coins - bet, total_spent := u.total_spent + bet } ∧
      (∀ uid, uid ≠ creator →
        getById (create_room st "russian_roulette" ch creator cname bet rid).2.users uid =
          getById st.users uid) ∧
      (create_room st "russian_roulette" ch creator cname bet rid).2.rooms =
        st.rooms ++
          [{ id := rid, game_type := "russian_roulette", channel_id := ch,
             creator_id := creator, creator_name := cname, bet_amount := bet,
             status := "waiting", max_players := rouletteMaxPlayers,
             min_players := rouletteMinPlayers,
             players := [{ user_id := creator, username := cname }],
             game_data := initialize_game_data }]) ∧
    (∀ (st : GameState) (rid caller : String) (room : GameRoom),
      getRoomById st.rooms rid = some room →
      room.status = "waiting" →
      room.creator_id = caller →
      (room.players.map (fun p => p.user_id)).Nodup →
      (cancel_room st rid caller).1.success = true ∧
      (∀ uid u, getById st.users uid = some u →
        getById (cancel_room st rid caller).2.users uid =
          some (if uid ∈ room.players.map (fun p => p.user_id) then
            u.add_coins room.bet_amount else u)) ∧
      getRoomById (cancel_room st rid caller).2.rooms rid = none) := by
  constructor
  · intro st ch creator cname rid bet u hu hname hbet1 hbet2 hcoins hw hp
    have hg : get_or_create_user st.users creator cname = (u, false, st.users) := by
      simp [get_or_create_user, hu, hname]
    have hkey : u.user_id = creator := getById_user_id hu
    have hsp : spend_coins_svc st.users creator bet =
        (true, saveUser st.users
          { u with coins := u.coins - bet, total_spent := u.total_spent + bet }) := by
      simp [spend_coins_svc, hu, User.spend_coins, hcoins]
    simp only [create_room, hg, hw, hp]
    rw [if_neg (by simp), if_neg (by omega), if_neg (by omega)]
    rw [if_neg (by omega), if_neg (by simp)]
    refine ⟨rfl, ?_, ?_, rfl⟩
    · dsimp only
      rw [hsp]
      dsimp only
      rw [getById_saveUser]
      simp [hkey, hu]
    · intro uid huid
      dsimp only
      rw [hsp]
      dsimp only
      rw [getById_saveUser]
      simp only [hkey]
      rw [if_neg (fun h => huid h.symm)]
  · intro st rid caller room hroom hstatus hcreator hnodup
    have hc : ¬room.creator_id ≠ caller := by simp [hcreator]
    have hs : ¬room.status = "playing" := by simp [hstatus]
    simp only [cancel_room, hroom, hc, hs]
    simp only [if_false]
    refine ⟨trivial, ?_, getRoomById_deleteRoom st.rooms rid⟩
    intro uid u hu
    rw [← List.foldl_map (fun p : Player => p.user_id)
      (fun us i => (add_coins_svc us i room.bet_amount).2)]
    exact getById_creditFold _ hnodup _ st.users uid u hu

/-- C7 witness: a fresh creator with 1000 coins opens a 100-coin room and
then cancels it, each side instantiated concretely. -/
theorem C7_witness :
    ((create_room ⟨[⟨"alice", "A", 1000, 0, 0⟩], [], []⟩
        "russian_roulette" "c1" "alice" "A" 100 "r1").1.success = true ∧
      getById (create_room ⟨[⟨"alice", "A", 1000, 0, 0⟩], [], []⟩
          "russian_roulette" "c1" "alice" "A" 100 "r1").2.users "alice" =
        some ⟨"alice", "A", 900, 0, 100⟩ ∧
      (∀ uid, uid ≠ "alice" →
        getById (create_room ⟨[⟨"alice", "A", 1000, 0, 0⟩], [], []⟩
            "russian_roulette" "c1" "alice" "A" 100 "r1").2.users uid =
          getById [⟨"alice", "A", 1000, 0, 0⟩] uid) ∧
      (create_room ⟨[⟨"alice", "A", 1000, 0, 0⟩], [], []⟩
          "russian_roulette" "c1" "alice" "A" 100 "r1").2.rooms =
        [] ++
          [{ id := "r1", game_type := "russian_roulette", channel_id := "c1",
             creator_id := "alice", creator_name := "A", bet_amount := 100,
             status := "waiting", max_players := rouletteMaxPlayers,
             min_players := rouletteMinPlayers,
             players := [{ user_id := "alice", username := "A" }],
             game_data := initialize_game_data }]) ∧
    ((cancel_room brokeCreatorState "r1" "alice").1.success = true ∧
      (∀ uid u, getById brokeCreatorState.users uid = some u →
        getById (cancel_room brokeCreatorState "r1" "alice").2.users uid =
          some (if uid ∈ (brokeCreatorState.rooms.headI.players.map
              (fun p => p.user_id)) then
            u.add_coins brokeCreatorState.rooms.headI.bet_amount else u)) ∧
      getRoomById (cancel_room brokeCreatorState "r1" "alice").2.rooms "r1" = none) :=
  ⟨C7_create_debits_cancel_refunds.1 ⟨[⟨"alice", "A", 1000, 0, 0⟩], [], []⟩
      "c1" "alice" "A" "r1" 100 ⟨"alice", "A", 1000, 0, 0⟩
      (by decide) rfl (by decide) (by decide) (by decide) rfl rfl,
    C7_create_debits_cancel_refunds.2 brokeCreatorState "r1" "alice"
      brokeCreatorState.rooms.headI (by decide) rfl rfl (by decide)⟩

/-- A room the user created or is seated in, with matching status, makes
`get_user_rooms` nonempty. -/
lemma get_user_rooms_ne_nil {rooms : List GameRoom} {uid st : String}
    {r : GameRoom} (hr : r ∈ rooms)
    (hm : r.creator_id = uid ∨ ∃ p ∈ r.players, p.user_id = uid)
    (hst : r.status = st) : get_user_rooms rooms uid st ≠ [] := by
  have hmem : r ∈ get_user_rooms rooms uid st := by
    apply List.mem_filter.mpr
    refine ⟨hr, ?_⟩
    simp only [Bool.and_eq_true, Bool.or_eq_true, beq_iff_eq, List.any_eq_true]
    constructor
    · rcases hm with h | ⟨p, hp, hpu⟩
      · exact Or.inl h
      · exact Or.inr ⟨p, hp, by simp [hpu]⟩
    · exact hst
  exact List.ne_nil_of_mem hmem

/-- C8, counterexample: the balance check runs before the active-room
check, so a creator who already holds a `waiting` room but cannot cover
the bet gets the insufficient-funds reason, not the already-in-room
reason.  (The call still fails and mutates nothing.) -/
theorem C8_wrong_reason_when_broke :
    (∃ r ∈ brokeCreatorState.rooms,
      (r.creator_id = "alice" ∨ ∃ p ∈ r.players, p.user_id = "alice") ∧
        (r.status = "waiting" ∨ r.status = "playing")) ∧
    (create_room brokeCreatorState "russian_roulette" "c1" "alice" "A" 100 "r9").1.success
      = false ∧
    (create_room brokeCreatorState "russian_roulette" "c1" "alice" "A" 100 "r9").1.message
      ≠ "你已有活跃的游戏房间，请先完成或取消现有游戏。" ∧
    (create_room brokeCreatorState "russian_roulette" "c1" "alice" "A" 100 "r9").1.message
      = "金币不足！当前金币：0，需要：100" := by
  refine ⟨⟨brokeCreatorState.rooms.headI, by decide, by decide, by decide⟩, ?_, ?_, ?_⟩
    <;> decide

/-- C8 (amended): while a user holds a room in status waiting or playing
(as creator or seated player), any further `create_room` call by that
user fails, performs no debit (every existing user keeps their coins and
lifetime totals) and creates no room; the failure reason is the
already-in-room message provided the checks that run first — registered
game type, bet within bounds, sufficient balance — pass (otherwise their
reason is reported instead). -/
theorem C8_second_create_room_fails (st : GameState)
    (gt ch creator cname rid : String) (bet : Int)
    (hactive : ∃ r ∈ st.rooms,
      (r.creator_id = creator ∨ ∃ p ∈ r.players, p.user_id = creator) ∧
        (r.status = "waiting" ∨ r.status = "playing")) :
    (create_room st gt ch creator cname bet rid).1.success = false ∧
    (create_room st gt ch creator cname bet rid).2.rooms = st.rooms ∧
    (∀ uid u, getById st.users uid = some u →
      ∃ u2, getById (create_room st gt ch creator cname bet rid).2.users uid = some u2 ∧
        u2.coins = u.coins ∧ u2.total_spent = u.total_spent ∧
        u2.total_earned = u.total_earned) ∧
    ((gt = "russian_roulette" ∧ rouletteMinBet ≤ bet ∧ bet ≤ rouletteMaxBet ∧
        bet ≤ (get_or_create_user st.users creator cname).1.coins) →
      (create_room st gt ch creator cname bet rid).1.message =
        "你已有活跃的游戏房间，请先完成或取消现有游戏。") := by
  obtain ⟨r, hr, hm, hst⟩ := hactive
  have hne : get_user_rooms st.rooms creator "waiting" ++
      get_user_rooms st.rooms creator "playing" ≠ [] := by
    intro h
    rcases List.append_eq_nil.mp h with ⟨h1, h2⟩
    rcases hst with hst | hst
    · exact get_user_rooms_ne_nil hr hm hst h1
    · exact get_user_rooms_ne_nil hr hm hst h2
  simp only [create_room]
  by_cases h1 : gt ≠ "russian_roulette"
  · rw [if_pos h1]
    exact ⟨rfl, rfl, fun uid u hu => ⟨u, hu, rfl, rfl, rfl⟩, fun hk => absurd hk.1 h1⟩
  · rw [if_neg h1]
    by_cases h2 : bet < rouletteMinBet
    · rw [if_pos h2]
      exact ⟨rfl, rfl, fun uid u hu => ⟨u, hu, rfl, rfl, rfl⟩,
        fun hk => absurd hk.2.1 (not_le.mpr h2)⟩
    · rw [if_neg h2]
      by_cases h3 : bet > rouletteMaxBet
      · rw [if_pos h3]
        exact ⟨rfl, rfl, fun uid u hu => ⟨u, hu, rfl, rfl, rfl⟩,
          fun hk => absurd hk.2.2.1 (not_le.mpr h3)⟩
      · rw [if_neg h3]
        by_cases h4 : (get_or_create_user st.users creator cname).1.coins < bet
        · rw [if_pos h4]
          exact ⟨rfl, rfl,
            fun uid u hu => getById_getOrCreate st.users creator cname uid u hu,
            fun hk => absurd hk.2.2.2 (not_le.mpr h4)⟩
        · rw [if_neg h4, if_pos hne]
          exact ⟨rfl, rfl,
            fun uid u hu => getById_getOrCreate st.users creator cname uid u hu,
            fun _ => rfl⟩

/-- C8 witness: the amended statement applied to the broke-creator
fixture. -/
theorem C8_second_create_room_fails_witness :
    (create_room brokeCreatorState "russian_roulette" "c1" "alice" "A" 100 "r9").1.success
        = false ∧
      (create_room brokeCreatorState "russian_roulette" "c1" "alice" "A" 100 "r9").2.rooms
        = brokeCreatorState.rooms ∧
      (∀ uid u, getById brokeCreatorState.users uid = some u →
        ∃ u2, getById (create_room brokeCreatorState "russian_roulette" "c1" "alice" "A"
            100 "r9").2.users uid = some u2 ∧
          u2.coins = u.coins ∧ u2.total_spent = u.total_spent ∧
          u2.total_earned = u.total_earned) ∧
      (("russian_roulette" = "russian_roulette" ∧ rouletteMinBet ≤ (100 : Int) ∧
          (100 : Int) ≤ rouletteMaxBet ∧
          (100 : Int) ≤ (get_or_create_user brokeCreatorState.users "alice" "A").1.coins) →
        (create_room brokeCreatorState "russian_roulette" "c1" "alice" "A" 100 "r9").1.message
          = "你已有活跃的游戏房间，请先完成或取消现有游戏。") :=
  C8_second_create_room_fails brokeCreatorState "russian_roulette" "c1" "alice" "A" "r9" 100
    ⟨brokeCreatorState.rooms.headI, by decide, by decide, by decide⟩

/-- Turn-ownership check: a shoot by anyone other than the seat at the
active index fails before any mutation. -/
lemma process_action_wrong_user (room : GameRoom) (uid : String)
    (shots : Int) (current : Player)
    (hidx : room.players.get? room.game_data.current_player_index = some current)
    (hne : current.user_id ≠ uid) :
    process_action room uid "shoot" shots = some (⟨false, none⟩, room) := by
  simp only [process_action, hidx]
  rw [if_neg (by simp), if_pos hne]

/-- C6: a `'shoot'` action by anyone who is not the current active player
fails and mutates nothing — the returned room is exactly the input room,
so chamber position, bullet position, active index and every seat's
`is_alive` / `shots_fired` are unchanged. -/
theorem C6_not_your_turn_no_mutation (room : GameRoom) (uid : String)
    (shots : Int) (current : Player)
    (hst : room.status = "playing")
    (hidx : room.players.get? room.game_data.current_player_index = some current)
    (hne : current.user_id ≠ uid) :
    process_action room uid "shoot" shots = some (⟨false, none⟩, room) :=
  process_action_wrong_user room uid shots current hidx hne

/-- C6 witness: in `hitRoom` the active seat is alice, so bob's shot
fails and returns the room untouched. -/
theorem C6_witness :
    process_action hitRoom "bob" "shoot" 1 = some (⟨false, none⟩, hitRoom) :=
  C6_not_your_turn_no_mutation hitRoom "bob" 1
    { user_id := "alice", username := "A" } rfl (by decide) (by decide)

/-- The advance loop always lands `d` circular steps ahead for some
`1 ≤ d ≤ fuel` (when it has fuel at all). -/
lemma nextPlayerLoop_eq_add_mod (players : List Player) :
    ∀ fuel idx, 1 ≤ fuel →
      ∃ d, 1 ≤ d ∧ d ≤ fuel ∧
        nextPlayerLoop players idx fuel = (idx + d) % players.length := by
  intro fuel
  induction fuel with
  | zero => intro idx h; omega
  | succ n ih =>
      intro idx _
      simp only [nextPlayerLoop]
      by_cases ha : (players.getD ((idx + 1) % players.length) default).is_alive = true
      · exact ⟨1, le_refl 1, by omega, by rw [if_pos ha]⟩
      · rw [if_neg ha]
        cases n with
        | zero => exact ⟨1, le_refl 1, by omega, by simp [nextPlayerLoop]⟩
        | succ m =>
            obtain ⟨d, hd1, hd2, hde⟩ := ih ((idx + 1) % players.length) (by omega)
            refine ⟨d + 1, by omega, by omega, ?_⟩
            rw [hde, Nat.mod_add_mod]
            congr 1
            omega

/-- If some seat within `fuel` forward steps is alive, the advance loop
stops at the first such seat: it lands on an alive seat and every seat it
stepped over is dead. -/
lemma nextPlayerLoop_first_alive (players : List Player) :
    ∀ fuel idx,
      (∃ d, 1 ≤ d ∧ d ≤ fuel ∧
        (players.getD ((idx + d) % players.length) default).is_alive = true) →
      ∃ d, 1 ≤ d ∧ d ≤ fuel ∧
        nextPlayerLoop players idx fuel = (idx + d) % players.length ∧
        (players.getD ((idx + d) % players.length) default).is_alive = true ∧
        ∀ e, 1 ≤ e → e < d →
          (players.getD ((idx + e) % players.length) default).is_alive = false := by
  intro fuel
  induction fuel with
  | zero =>
      rintro idx ⟨d, hd1, hd2, _⟩
      omega
  | succ n ih =>
      rintro idx ⟨d, hd1, hd2, hal⟩
      simp only [nextPlayerLoop]
      by_cases ha : (players.getD ((idx + 1) % players.length) default).is_alive = true
      · refine ⟨1, le_refl 1, by omega, by rw [if_pos ha], ha, ?_⟩
        intro e he1 he2
        omega
      · rw [if_neg ha]
        have hd1' : d ≠ 1 := by
          intro h
          subst h
          exact ha hal
        obtain ⟨d', h1, h2, h3, h4, h5⟩ := ih ((idx + 1) % players.length)
          ⟨d - 1, by omega, by omega, by
            rw [Nat.mod_add_mod]
            have he : idx + 1 + (d - 1) = idx + d := by omega
            rw [he]
            exact hal⟩
        rw [Nat.mod_add_mod] at h3 h4
        refine ⟨d' + 1, by omega, by omega, ?_, ?_, ?_⟩
        · rw [h3]
          congr 1
          omega
        · have he : idx + 1 + d' = idx + (d' + 1) := by omega
          rw [he] at h4
          exact h4
        · intro e he1 he2
          rcases Nat.lt_or_ge e 2 with he3 | he3
          · have he0 : e = 1 := by omega
            subst he0
            exact (Bool.not_eq_true _) ▸ ha
          · have h5e := h5 (e - 1) (by omega) (by omega)
            rw [Nat.mod_add_mod] at h5e
            have he4 : idx + 1 + (e - 1) = idx + e := by omega
            rw [he4] at h5e
            exact h5e

/-- C10: the advance-to-next-player step terminates within one full pass
— the result is always `(idx + d) % len` for some `d ≤ len` — and
whenever some seat other than the current one is alive, it lands on an
alive seat having skipped only dead seats, wrapping circularly. -/
theorem C10_next_player_one_pass (players : List Player) (idx : Nat) :
    (∃ d, d ≤ players.length ∧
      next_player_index players idx = (idx + d) % players.length) ∧
    (idx < players.length →
      (∃ j, j < players.length ∧ j ≠ idx ∧
        (players.getD j default).is_alive = true) →
      ∃ d, 1 ≤ d ∧ d ≤ players.length ∧
        next_player_index players idx = (idx + d) % players.length ∧
        (players.getD ((idx + d) % players.length) default).is_alive = true ∧
        ∀ e, 1 ≤ e → e < d →
          (players.getD ((idx + e) % players.length) default).is_alive = false) := by
  constructor
  · rcases Nat.eq_zero_or_pos players.length with h0 | hpos
    · refine ⟨0, by omega, ?_⟩
      rw [h0]
      simp only [next_player_index, h0, nextPlayerLoop]
      omega
    · obtain ⟨d, h1, h2, h3⟩ := nextPlayerLoop_eq_add_mod players players.length idx hpos
      exact ⟨d, h2, h3⟩
  · intro hidx hj
    obtain ⟨j, hjn, hji, hja⟩ := hj
    have hd0 : ∃ d0, 1 ≤ d0 ∧ d0 ≤ players.length ∧
        (idx + d0) % players.length = j := by
      rcases Nat.lt_or_ge idx j with h | h
      · refine ⟨j - idx, by omega, by omega, ?_⟩
        have he : idx + (j - idx) = j := by omega
        rw [he, Nat.mod_eq_of_lt hjn]
      · have hji2 : j < idx := by omega
        refine ⟨players.length - idx + j, by omega, by omega, ?_⟩
        have he : idx + (players.length - idx + j) = players.length + j := by omega
        rw [he, Nat.add_mod_left, Nat.mod_eq_of_lt hjn]
    obtain ⟨d0, hd01, hd02, hd0j⟩ := hd0
    exact nextPlayerLoop_first_alive players players.length idx
      ⟨d0, hd01, hd02, by rw [hd0j]; exact hja⟩

/-- C10 witness: three seats, seats 1 dead and 2 alive, starting from
seat 0: both parts applied concretely. -/
theorem C10_next_player_witness :
    (∃ d, d ≤ 3 ∧
      next_player_index [⟨"a", "A", true, 0⟩, ⟨"b", "B", false, 1⟩,
        ⟨"c", "C", true, 0⟩] 0 = (0 + d) % 3) ∧
    (∃ d, 1 ≤ d ∧ d ≤ 3 ∧
      next_player_index [⟨"a", "A", true, 0⟩, ⟨"b", "B", false, 1⟩,
        ⟨"c", "C", true, 0⟩] 0 = (0 + d) % 3 ∧
      (([⟨"a", "A", true, 0⟩, ⟨"b", "B", false, 1⟩,
        ⟨"c", "C", true, 0⟩] : List Player).getD ((0 + d) % 3) default).is_alive = true ∧
      ∀ e, 1 ≤ e → e < d →
        (([⟨"a", "A", true, 0⟩, ⟨"b", "B", false, 1⟩,
          ⟨"c", "C", true, 0⟩] : List Player).getD ((0 + e) % 3) default).is_alive
          = false) := by
  have h := C10_next_player_one_pass
    [⟨"a", "A", true, 0⟩, ⟨"b", "B", false, 1⟩, ⟨"c", "C", true, 0⟩] 0
  exact ⟨h.1, h.2 (by decide) ⟨2, by decide, by decide, by decide⟩⟩

/-- C5, counterexample: with the bullet in slot 1, six sequential
single-shot pulls from position 1 hit on every pull — six hits, not
exactly one — because a hit does not advance the wheel (the break happens
before the position update), so every later pull fires from the bullet
slot again. -/
theorem C5_six_pulls_can_hit_six_times :
    (pullFlags 1 1 6 6).count true = 6 ∧ (pullFlags 1 1 6 6).count true ≠ 1 := by
  decide

/-- C5 (amended): after `start_game` the wheel sits at position 1 with the
bullet at `b ∈ [1,6]`; a sweep of six sequential single-shot pulls misses
on each of the first `b − 1` pulls and hits first at pull number `b`, so
it hits at least once; but since a hit leaves the wheel in place, the
remaining pulls hit again — `7 − b` hits in total, exactly one only when
`b = 6`.  On each miss the wheel advances by one, wrapping from 6 back
to 1. -/
theorem C5_sweep_first_hit_at_bullet (b : Nat) (hb1 : 1 ≤ b) (hb6 : b ≤ 6)
    (room : GameRoom) (shuffled : List Player) :
    (start_game room b shuffled).game_data.current_position = 1 ∧
    (start_game room b shuffled).game_data.bullet_position = b ∧
    (pullFlags 1 b 6 6).length = 6 ∧
    (∀ i, i < 6 → i + 1 < b → (pullFlags 1 b 6 6).getD i true = false) ∧
    (pullFlags 1 b 6 6).getD (b - 1) false = true ∧
    (pullFlags 1 b 6 6).count true = 7 - b ∧
    ((pullFlags 1 b 6 6).count true = 1 ↔ b = 6) ∧
    (∀ pos, pos < 7 → 1 ≤ pos → pos ≠ b →
      fireShots pos b 6 1 = (false, if pos = 6 then 1 else pos + 1)) := by
  refine ⟨rfl, rfl, ?_, ?_, ?_, ?_, ?_, ?_⟩ <;> interval_cases b <;> decide

/-- C5 witness: the amended sweep statement at bullet slot 3. -/
theorem C5_sweep_witness :
    (start_game finishedRoom 3 []).game_data.current_position = 1 ∧
    (start_game finishedRoom 3 []).game_data.bullet_position = 3 ∧
    (pullFlags 1 3 6 6).length = 6 ∧
    (∀ i, i < 6 → i + 1 < 3 → (pullFlags 1 3 6 6).getD i true = false) ∧
    (pullFlags 1 3 6 6).getD (3 - 1) false = true ∧
    (pullFlags 1 3 6 6).count true = 7 - 3 ∧
    ((pullFlags 1 3 6 6).count true = 1 ↔ 3 = 6) ∧
    (∀ pos, pos < 7 → 1 ≤ pos → pos ≠ 3 →
      fireShots pos 3 6 1 = (false, if pos = 6 then 1 else pos + 1)) :=
  C5_sweep_first_hit_at_bullet 3 (by decide) (by decide) finishedRoom []

/-! ## Lemmas for the hit-without-finish scenario (C4). -/

lemma fireShots_hit (pos chamber n : Nat) :
    fireShots pos pos chamber (n + 1) = (true, pos) := by
  simp [fireShots]

lemma getRoomById_id {rooms : List GameRoom} {rid : String} {r : GameRoom}
    (h : getRoomById rooms rid = some r) : r.id = rid := by
  induction rooms with
  | nil => simp [getRoomById] at h
  | cons x rest ih =>
      simp only [getRoomById] at h
      split at h
      · simp at h
        subst h
        assumption
      · exact ih h

lemma getRoomById_updateRoom {rooms : List GameRoom} {rid : String}
    {room : GameRoom} (h : getRoomById rooms rid = some room)
    (room2 : GameRoom) (hid : room2.id = room.id) :
    getRoomById (updateRoom rooms room2) rid = some room2 := by
  have hr : room.id = rid := getRoomById_id h
  induction rooms with
  | nil => simp [getRoomById] at h
  | cons x rest ih =>
      simp only [getRoomById] at h
      simp only [updateRoom, List.map_cons, getRoomById]
      split at h
      · next hx =>
          have hx2 : x.id = room2.id := by rw [hid, hr, hx]
          rw [if_pos hx2, if_pos (by rw [hid, hr])]
      · next hx =>
          have hx2 : ¬x.id = room2.id := by
            rw [hid, hr]
            exact hx
          rw [if_neg hx2, if_neg hx]
          exact ih h

lemma updateRoom_updateRoom (rooms : List GameRoom) (room : GameRoom) :
    updateRoom (updateRoom rooms room) room = updateRoom rooms room := by
  induction rooms with
  | nil => rfl
  | cons r rest ih =>
      simp only [updateRoom, List.map_cons] at ih ⊢
      by_cases h : r.id = room.id
      · simp [h, ih]
      · simp [h, ih]

/-- Setting a seat shifts the alive-filter length by exactly the change at
that seat. -/
lemma length_filter_set (l : List Player) (i : Nat) (cur a : Player)
    (p : Player → Bool) (h : l.get? i = some cur) :
    ((l.set i a).filter p).length + (if p cur then 1 else 0)
      = (l.filter p).length + (if p a then 1 else 0) := by
  induction l generalizing i with
  | nil => simp [List.get?] at h
  | cons x rest ih =>
      cases i with
      | zero =>
          simp only [List.get?] at h
          have hx : x = cur := by simpa using h
          subst hx
          simp only [List.set, List.filter_cons]
          cases hp : p x <;> cases hpa : p a <;> simp [hp, hpa] <;> omega
      | succ j =>
          simp only [List.get?] at h
          have hrest := ih j h
          simp only [List.set, List.filter_cons]
          cases hp : p x <;> simp [hp] <;> omega

/-- The engine's shot at the bullet position with a valid shot count: the
active seat dies, the wheel stays put, the turn does not advance. -/
lemma process_action_hit (room : GameRoom) (current : Player) (shots : Int)
    (hidx : room.players.get? room.game_data.current_player_index = some current)
    (hhit : room.game_data.current_position = room.game_data.bullet_position)
    (hs1 : 1 ≤ shots) (hs3 : shots ≤ 3) :
    process_action room current.user_id "shoot" shots =
      some (⟨true, some false⟩, room_after_hit room current shots) := by
  obtain ⟨m, hm⟩ : ∃ m, shots.toNat = m + 1 := ⟨shots.toNat - 1, by omega⟩
  have hfired : fireShots room.game_data.current_position
      room.game_data.bullet_position room.game_data.chamber_count shots.toNat =
      (true, room.game_data.current_position) := by
    rw [hm, hhit]
    exact fireShots_hit _ _ _
  simp only [process_action, hidx]
  rw [if_neg (by simp), if_neg (by simp), if_neg (by omega)]
  simp only [hfired]
  simp [room_after_hit]

/-- C4: in a `playing` room with at least 3 alive seats, when the active
player's shot hits the bullet, the engine reports success with
`game_continues = false` but does not advance the turn: the active index
still points at the now-dead seat, `is_game_finished` is false so
`process_game_action` leaves the room in status `playing`, and every
subsequent `'shoot'` by any other user fails the turn-ownership check
without mutating anything — so no sequence of other users' actions can
ever bring the room to `finished`. -/
theorem C4_hit_without_finish_blocks_room (st : GameState) (rid : String)
    (room : GameRoom) (current : Player) (shots : Int)
    (h_found : getRoomById st.rooms rid = some room)
    (h_type : room.game_type = "russian_roulette")
    (h_status : room.status = "playing")
    (h_idx : room.players.get? room.game_data.current_player_index = some current)
    (h_hit : room.game_data.current_position = room.game_data.bullet_position)
    (h_alive : 3 ≤ (room.players.filter (fun p => p.is_alive)).length)
    (h_s1 : 1 ≤ shots) (h_s3 : shots ≤ 3) :
    process_action room current.user_id "shoot" shots =
      some (⟨true, some false⟩, room_after_hit room current shots) ∧
    (room_after_hit room current shots).game_data.current_player_index =
      room.game_data.current_player_index ∧
    (room_after_hit room current shots).players.get?
        (room_after_hit room current shots).game_data.current_player_index =
      some { current with
             is_alive := false,
             shots_fired := current.shots_fired + shots.toNat } ∧
    is_game_finished (room_after_hit room current shots) = false ∧
    (room_after_hit room current shots).status = "playing" ∧
    process_game_action st rid current.user_id "shoot" shots =
      some (⟨true, some false⟩,
        { st with rooms := updateRoom st.rooms (room_after_hit room current shots) }) ∧
    (∀ uid s2, uid ≠ current.user_id →
      process_action (room_after_hit room current shots) uid "shoot" s2 =
        some (⟨false, none⟩, room_after_hit room current shots)) ∧
    getRoomById (updateRoom st.rooms (room_after_hit room current shots)) rid =
      some (room_after_hit room current shots) ∧
    (∀ acts : List (String × Int), (∀ a ∈ acts, a.1 ≠ current.user_id) →
      run_actions
        { st with rooms := updateRoom st.rooms (room_after_hit room current shots) }
        rid acts =
        some { st with
          rooms := updateRoom st.rooms (room_after_hit room current shots) }) := by
  have hA := process_action_hit room current shots h_idx h_hit h_s1 h_s3
  obtain ⟨hlt, -⟩ := List.get?_eq_some.mp h_idx
  have hC : (room_after_hit room current shots).players.get?
      (room_after_hit room current shots).game_data.current_player_index =
      some { current with
             is_alive := false,
             shots_fired := current.shots_fired + shots.toNat } := by
    simp only [room_after_hit]
    rw [List.get?_eq_getElem?]
    exact List.getElem?_set_eq_of_lt _ hlt
  have hcount := length_filter_set room.players room.game_data.current_player_index
    current
    { current with
      is_alive := false,
      shots_fired := current.shots_fired + shots.toNat }
    (fun p => p.is_alive) h_idx
  have halive2 : 2 ≤ ((room.players.set room.game_data.current_player_index
      { current with
        is_alive := false,
        shots_fired := current.shots_fired + shots.toNat }).filter
      (fun p => p.is_alive)).length := by
    cases hcur : current.is_alive <;> simp [hcur] at hcount <;> omega
  have hD : is_game_finished (room_after_hit room current shots) = false := by
    simp only [is_game_finished, room_after_hit]
    exact decide_eq_false_iff_not.mpr (by omega)
  have hE : process_game_action st rid current.user_id "shoot" shots =
      some (⟨true, some false⟩,
        { st with rooms := updateRoom st.rooms (room_after_hit room current shots) }) := by
    simp only [process_game_action, h_found]
    rw [if_neg (by simp [h_type]), if_neg (by simp [h_status])]
    rw [hA]
    simp only [hD]
    rfl
  have hF : ∀ uid s2, uid ≠ current.user_id →
      process_action (room_after_hit room current shots) uid "shoot" s2 =
        some (⟨false, none⟩, room_after_hit room current shots) := by
    intro uid s2 hne
    exact process_action_wrong_user _ uid s2 _ hC (fun h => hne h.symm)
  have hH : getRoomById (updateRoom st.rooms (room_after_hit room current shots)) rid =
      some (room_after_hit room current shots) :=
    getRoomById_updateRoom h_found _ rfl
  refine ⟨hA, rfl, hC, hD, h_status, hE, hF, hH, ?_⟩
  intro acts hacts
  induction acts with
  | nil => rfl
  | cons a rest ih =>
      have ha : a.1 ≠ current.user_id := hacts a (List.mem_cons_self a rest)
      have hstep : process_game_action
          { st with rooms := updateRoom st.rooms (room_after_hit room current shots) }
          rid a.1 "shoot" a.2 =
          some (⟨false, none⟩,
            { st with rooms := updateRoom st.rooms (room_after_hit room current shots) }) := by
        simp only [process_game_action, hH]
        rw [if_neg (by simp [room_after_hit, h_type]),
          if_neg (by simp [room_after_hit, h_status])]
        rw [hF a.1 a.2 ha]
        simp only [hD]
        simp only [updateRoom_updateRoom]
        rfl
      simp only [run_actions, hstep]
      exact ih (fun b hb => hacts b (List.mem_cons_of_mem a hb))

/-- C4 witness: in `hitState` the wheel sits on the bullet with three
alive seats; alice's single shot kills her seat without finishing the
game, and bob's and carol's follow-up shots leave everything unchanged. -/
theorem C4_witness :
    process_action hitRoom "alice" "shoot" 1 =
      some (⟨true, some false⟩,
        room_after_hit hitRoom { user_id := "alice", username := "A" } 1) ∧
    is_game_finished (room_after_hit hitRoom { user_id := "alice", username := "A" } 1)
      = false ∧
    run_actions
      { hitState with
        rooms := updateRoom hitState.rooms
          (room_after_hit hitRoom { user_id := "alice", username := "A" } 1) }
      "r4" [("bob", 1), ("carol", 2)] =
      some { hitState with
        rooms := updateRoom hitState.rooms
          (room_after_hit hitRoom { user_id := "alice", username := "A" } 1) } := by
  have h := C4_hit_without_finish_blocks_room hitState "r4" hitRoom
    { user_id := "alice", username := "A" } 1
    rfl rfl rfl rfl rfl (by decide) (by decide) (by decide)
  exact ⟨h.1, h.2.2.2.1,
    h.2.2.2.2.2.2.2.2 [("bob", 1), ("carol", 2)] (by decide)⟩

end DZGM
